import Mathlib

/-!
Shallow embedding of the certmagic Azure Blob storage backend
(`azureBlobStorage.go`, package `certmagic_azure`).

The remote container is modelled as an association list from blob names
(backend paths) to blobs; the outcomes of the Azure SDK calls that can fail
(credential construction, client construction, and the HTTP round-trips) are
modelled by a `Net` record of Booleans.  The Go standard-library string and
path helpers used by the source (`path.Join`, `path.Clean`,
`strings.CutPrefix`, `strings.HasSuffix`) are modelled below by structurally
recursive functions on `List Char`, following their documented semantics.
-/

/-- A stored blob: its payload (bytes as `Nat`s) and the last-modified
timestamp maintained by the service. -/
structure Blob where
  data : List Nat
  modified : Nat
deriving DecidableEq

/-- The state of the Azure container: blob name (backend path) to blob. -/
abbrev ContState := List (String × Blob)

/-- Outcomes of the fallible Azure SDK steps: `credOk` for
`azblob.NewSharedKeyCredential`, `clientOk` for
`azblob.NewClientWithSharedKeyCredential`, `transportOk` for the HTTP
round-trips (GetProperties / UploadBuffer / DownloadStream / pager). -/
structure Net where
  credOk : Bool
  clientOk : Bool
  transportOk : Bool
deriving DecidableEq

/-- Errors surfaced by the Go code: `fs.ErrNotExist` (returned by `Load` when
the existence probe fails), service-level blob-not-found, and transport-level
failures. -/
inductive GoErr where
  | notExist
  | blobNotFound
  | transport (msg : String)
deriving DecidableEq

deriving instance DecidableEq for Except

/-- Blob properties returned by `GetProperties`: `LastModified` and
`ContentLength` (the payload size). -/
structure BlobProps where
  lastModified : Nat
  contentLength : Nat
deriving DecidableEq

/-- First-match lookup of a blob name in the container state. -/
def lookupBlob (st : ContState) (p : String) : Option Blob :=
  match st with
  | [] => none
  | (q, b) :: rest => if q = p then some b else lookupBlob rest p

/-- Split a character list at every slash (Go `strings.Split(s, "/")` on the
character level): adjacent slashes yield empty segments. -/
def splitSlash : List Char → List (List Char)
  | [] => [[]]
  | c :: cs =>
    let r := splitSlash cs
    if c = '/' then [] :: r
    else
      match r with
      | s :: ss => (c :: s) :: ss
      | [] => [[c]]

/-- One step of Go `path.Clean`'s segment processing: empty and `.` segments
are dropped; `..` pops the last real segment (never past the root when
`rooted`, and accumulating when the stack already holds only `..`s in the
relative case); any other segment is pushed. The stack holds the segments of
the cleaned path in reverse order. -/
def segStep (rooted : Bool) (stack : List (List Char)) (seg : List Char) :
    List (List Char) :=
  if seg = [] ∨ seg = ['.'] then stack
  else if seg = ['.', '.'] then
    match stack with
    | [] => if rooted then [] else [['.', '.']]
    | top :: rest => if top = ['.', '.'] then seg :: stack else rest
  else seg :: stack

/-- Interleave the segments with slashes (lexical inverse of `splitSlash` on
slash-free segments). -/
def joinSlash : List (List Char) → List Char
  | [] => []
  | [s] => s
  | s :: ss => s ++ '/' :: joinSlash ss

/-- Model of Go `path.Clean`: `""` cleans to `"."`; otherwise the path is
split at slashes, the segments are processed by `segStep`, and the result is
re-rooted; an empty relative result is `"."`, an empty rooted result is
`"/"`. -/
def pathClean (s : String) : String :=
  if s = "" then "."
  else
    let cs := s.data
    let rooted := cs.head? = some '/'
    let stack := (splitSlash cs).foldl (segStep rooted) []
    let body := joinSlash stack.reverse
    if rooted then String.mk ('/' :: body)
    else if body = [] then "." else String.mk body

/-- Model of Go `path.Join(a, b)`: empty elements are skipped, the rest are
joined with a slash and the result is cleaned; all-empty input yields `""`. -/
def pathJoin2 (a b : String) : String :=
  if a = "" ∧ b = "" then ""
  else if a = "" then pathClean b
  else if b = "" then pathClean a
  else pathClean (a ++ "/" ++ b)

/-- Model of Go `strings.HasPrefix(s, pre)`. -/
def strHasPrefix (s pre : String) : Bool :=
  pre.data.isPrefixOf s.data

/-- Model of Go `strings.HasSuffix(s, suf)`. -/
def strHasSuffix (s suf : String) : Bool :=
  suf.data.isSuffixOf s.data

/-- Model of Go `strings.CutPrefix(s, pre)`: when `pre` is a prefix of `s`,
returns `s` without it and `true`; otherwise `s` unchanged and `false`. -/
def stringsCutPrefix (s pre : String) : String × Bool :=
  if strHasPrefix s pre then (String.mk (s.data.drop pre.data.length), true)
  else (s, false)

/-- The backend configuration (`type AzureBlob struct`); the `*azblob.Client`
field is opaque and is represented by the `Net`/`ContState` parameters of the
operations instead. -/
structure AzureBlob where
  AccountName : String
  AccountKey : String
  Container : String
  Prefix : String
deriving DecidableEq

/-- `func (az AzureBlob) KeyPrefix(key string) string`:
`path.Join(az.Prefix, key)`. -/
def AzureBlob.KeyPrefix (az : AzureBlob) (key : String) : String :=
  pathJoin2 az.Prefix key

/-- `func (az AzureBlob) CutKeyPrefix(key string) string`:
`strings.CutPrefix(key, az.Prefix)`, discarding the Boolean. -/
def AzureBlob.CutKeyPrefix (az : AzureBlob) (key : String) : String :=
  (stringsCutPrefix key az.Prefix).1

/-- `blobClient.GetProperties`: fails on a transport failure or when no blob
is present at path `p`; otherwise returns last-modified and content length. -/
def getProperties (env : Net) (st : ContState) (p : String) :
    Except GoErr BlobProps :=
  if env.transportOk = false then .error (GoErr.transport "GetProperties")
  else
    match lookupBlob st p with
    | none => .error GoErr.blobNotFound
    | some b => .ok { lastModified := b.modified, contentLength := b.data.length }

/-- `az.Client.DownloadStream` followed by `io.ReadAll`: the full payload of
the blob at path `p`, or a failure. -/
def downloadStream (env : Net) (st : ContState) (p : String) :
    Except GoErr (List Nat) :=
  if env.transportOk = false then .error (GoErr.transport "DownloadStream")
  else
    match lookupBlob st p with
    | none => .error GoErr.blobNotFound
    | some b => .ok b.data

/-- `func (az AzureBlob) Lock(ctx, key) error`: the body is `return nil` —
no backend call is made and no state is touched. -/
def AzureBlob.Lock (az : AzureBlob) (st : ContState) (key : String) :
    Option GoErr × ContState :=
  (none, st)

/-- `func (az AzureBlob) Unlock(ctx, key) error`: the body is `return nil`. -/
def AzureBlob.Unlock (az : AzureBlob) (st : ContState) (key : String) :
    Option GoErr × ContState :=
  (none, st)

/-- `func (az AzureBlob) Store(ctx, key, value) error`: prefixes the key with
`KeyPrefix` and uploads the payload there (`az.Client.UploadBuffer`),
overwriting any existing blob. `now` is the last-modified timestamp the
service assigns to the upload. -/
def AzureBlob.Store (az : AzureBlob) (env : Net) (st : ContState)
    (key : String) (value : List Nat) (now : Nat) : Option GoErr × ContState :=
  let key := az.KeyPrefix key
  if env.transportOk = false then (some (GoErr.transport "UploadBuffer"), st)
  else (none, (key, { data := value, modified := now }) :: st)

/-- `func (az AzureBlob) Exists(ctx, key) bool`: builds a fresh shared-key
credential and client (each returning `false` on failure), then calls
`GetProperties` on a blob client for `key` — the raw logical key, exactly as
in the source, which never applies `KeyPrefix` here — returning `false` on
any error and `true` otherwise. -/
def AzureBlob.Exists (az : AzureBlob) (env : Net) (st : ContState)
    (key : String) : Bool :=
  if env.credOk = false then false
  else if env.clientOk = false then false
  else
    match getProperties env st key with
    | .error _ => false
    | .ok _ => true

/-- `func (az AzureBlob) Load(ctx, key) ([]byte, error)`: if
`!az.Exists(ctx, key)` returns `fs.ErrNotExist`; otherwise prefixes the key
and downloads the stream, returning its bytes. -/
def AzureBlob.Load (az : AzureBlob) (env : Net) (st : ContState)
    (key : String) : Except GoErr (List Nat) :=
  if az.Exists env st key = false then .error GoErr.notExist
  else
    let key := az.KeyPrefix key
    match downloadStream env st key with
    | .error e => .error e
    | .ok body => .ok body

/-- `func (az AzureBlob) Delete(ctx, key) error`: prefixes the key and
deletes the blob at the resolved path (`az.Client.DeleteBlob`). -/
def AzureBlob.Delete (az : AzureBlob) (env : Net) (st : ContState)
    (key : String) : Option GoErr × ContState :=
  let key := az.KeyPrefix key
  if env.transportOk = false then (some (GoErr.transport "DeleteBlob"), st)
  else (none, st.filter (fun kv => kv.1 ≠ key))

/-- `func (az AzureBlob) List(ctx, prefix, recursive) ([]string, error)`:
prefixes the requested prefix, pages through the blobs whose names start with
it, and returns each name with `CutKeyPrefix` applied. The `recursive`
parameter is accepted but never read, exactly as in the source. -/
def AzureBlob.List (az : AzureBlob) (env : Net) (st : ContState)
    (pre : String) (recursive : Bool) : Except GoErr (List String) :=
  let pre := az.KeyPrefix pre
  if env.transportOk = false then .error (GoErr.transport "NextPage")
  else .ok ((st.filter (fun kv => strHasPrefix kv.1 pre)).map
    (fun kv => az.CutKeyPrefix kv.1))

/-- `certmagic.KeyInfo`. `Modified` is a timestamp, `Size` a byte count. -/
structure KeyInfo where
  Key : String
  Modified : Nat
  Size : Nat
  IsTerminal : Bool
deriving DecidableEq

/-- The zero value `certmagic.KeyInfo{}`. -/
def KeyInfo.zero : KeyInfo :=
  { Key := "", Modified := 0, Size := 0, IsTerminal := false }

/-- `func (az AzureBlob) Stat(ctx, key) (certmagic.KeyInfo, error)`: prefixes
the key and calls `GetProperties`; on error returns the zero `KeyInfo` and a
nil error; on success returns the prefixed key, last-modified, content
length, and `IsTerminal := strings.HasSuffix(key, "/")` on the prefixed key,
with a nil error. -/
def AzureBlob.Stat (az : AzureBlob) (env : Net) (st : ContState)
    (key : String) : KeyInfo × Option GoErr :=
  let key := az.KeyPrefix key
  match getProperties env st key with
  | .error _ => (KeyInfo.zero, none)
  | .ok props =>
    ({ Key := key, Modified := props.lastModified,
       Size := props.contentLength,
       IsTerminal := strHasSuffix key "/" }, none)

/-- `func (az AzureBlob) String() string`: the diagnostic representation,
built from the account name, container and prefix only. -/
def AzureBlob.String (az : AzureBlob) :=
  "Azure Blob Storage Account: " ++ az.AccountName ++ ", Container: "
    ++ az.Container ++ ", Prefix: " ++ az.Prefix

/-! Concrete fixtures used by the counterexamples and witnesses. -/

/-- A backend configured with the non-empty prefix `"p"`. -/
def azP : AzureBlob :=
  { AccountName := "acct", AccountKey := "secret", Container := "cont",
    Prefix := "p" }

/-- A backend configured with the empty prefix. -/
def azE : AzureBlob :=
  { AccountName := "acct", AccountKey := "secret", Container := "cont",
    Prefix := "" }

/-- A backend configured with the non-empty prefix `"."` (which `path.Join`
normalizes away). -/
def azD : AzureBlob :=
  { AccountName := "acct", AccountKey := "secret", Container := "cont",
    Prefix := "." }

/-- All SDK calls succeed. -/
def envOk : Net := { credOk := true, clientOk := true, transportOk := true }

/-- A container holding one blob at the backend path `"p/a"`, i.e. at
`azP.KeyPrefix "a"`. -/
def stP : ContState := [("p/a", { data := [7], modified := 3 })]

/-! Helper lemmas on the string model. -/

theorem strMk_data (s : String) : String.mk s.data = s := by
  cases s
  rfl

theorem strAppend_data (a b : String) : (a ++ b).data = a.data ++ b.data := by
  cases a
  cases b
  rfl

theorem strAppend_assoc (a b c : String) : a ++ b ++ c = a ++ (b ++ c) := by
  cases a with
  | mk as =>
    cases b with
    | mk bs =>
      cases c with
      | mk cs =>
        show String.mk (as ++ bs ++ cs) = String.mk (as ++ (bs ++ cs))
        rw [List.append_assoc]

theorem strAppend_empty (s : String) : s ++ "" = s := by
  cases s with
  | mk cs =>
    show String.mk (cs ++ []) = String.mk cs
    rw [List.append_nil]

theorem strHasPrefix_empty (s : String) : strHasPrefix s "" = true := by
  unfold strHasPrefix
  cases h : s.data <;> rfl

theorem stringsCutPrefix_empty (s : String) : stringsCutPrefix s "" = (s, true) := by
  unfold stringsCutPrefix
  simp only [strHasPrefix_empty, if_true]
  show (String.mk (s.data.drop 0), true) = (s, true)
  rw [List.drop_zero, strMk_data]

/-! Claim theorems. -/

/-- C1 (counterexample): the claim fails on the code. `Lock` returns success
(nil error) immediately while creating no lock object (the container state is
unchanged), and a second `Lock` call for the same key also succeeds — so two
concurrent `Lock` calls for the same key do both succeed. -/
theorem lock_exclusivity_cex :
    (azP.Lock [] "x").1 = none ∧ (azP.Lock [] "x").2 = ([] : ContState) ∧
      (azP.Lock (azP.Lock [] "x").2 "x").1 = none :=
  ⟨rfl, rfl, rfl⟩

/-- C1 (amended): `Lock` is a no-op — for every backend, state and key it
returns success (nil error) immediately without creating any lock object or
touching the backend, so it establishes no exclusivity. -/
theorem lock_is_noop (az : AzureBlob) (st : ContState) (key : String) :
    az.Lock st key = (none, st) :=
  rfl

/-- C2: with the non-empty configured prefix `"p"`, `Store "a"` succeeds and
puts the blob at the resolved backend path `KeyPrefix "a" = "p/a"`, yet the
subsequent `Exists "a"` on the same backend returns `false` and `Load "a"`
returns `fs.ErrNotExist`: `Exists` probes the raw logical key instead of the
resolved path, so the prefix is not applied consistently. -/
theorem store_exists_prefix_mismatch :
    (azP.Store envOk [] "a" [1, 2] 5).1 = none ∧
      lookupBlob (azP.Store envOk [] "a" [1, 2] 5).2 (azP.KeyPrefix "a") =
        some { data := [1, 2], modified := 5 } ∧
      azP.Exists envOk (azP.Store envOk [] "a" [1, 2] 5).2 "a" = false ∧
      azP.Load envOk (azP.Store envOk [] "a" [1, 2] 5).2 "a" =
        .error GoErr.notExist := by
  decide

/-- C3 (counterexample): with the configured prefix `"p"` and the valid key
`"a"`, `CutKeyPrefix (KeyPrefix "a")` is `"/a"`, not `"a"`: the round-trip
invariant fails because `KeyPrefix` joins with a separator that
`CutKeyPrefix` does not remove. -/
theorem cutKeyPrefix_keyPrefix_roundtrip_cex :
    azP.CutKeyPrefix (azP.KeyPrefix "a") = "/a" ∧
      azP.CutKeyPrefix (azP.KeyPrefix "a") ≠ "a" := by
  decide

/-- C3 (amended): the round trip restores the key only in special cases — if
the configured Prefix is empty and `k` is a non-empty cleaned path
(`pathClean k = k`), then `CutKeyPrefix (KeyPrefix k) = k`. -/
theorem cutKeyPrefix_keyPrefix_roundtrip_empty (az : AzureBlob) (k : String)
    (h : az.Prefix = "") (hk : k ≠ "") (hc : pathClean k = k) :
    az.CutKeyPrefix (az.KeyPrefix k) = k := by
  have hkp : az.KeyPrefix k = k := by
    unfold AzureBlob.KeyPrefix pathJoin2
    rw [h]
    simp [hk, hc]
  rw [hkp]
  unfold AzureBlob.CutKeyPrefix
  rw [h, stringsCutPrefix_empty]

/-- C3 (witness): the amended round trip at the empty prefix and key `"a"`. -/
theorem cutKeyPrefix_keyPrefix_roundtrip_empty_witness :
    azE.CutKeyPrefix (azE.KeyPrefix "a") = "a" :=
  cutKeyPrefix_keyPrefix_roundtrip_empty azE "a" rfl (by decide) (by decide)

/-- C4: with prefix `"p"` and a blob present at the resolved backend path
`KeyPrefix "a" = "p/a"`, `Load "a"` nevertheless fails with `fs.ErrNotExist`:
the pre-fetch existence probe consults the unprefixed path `"a"` while the
fetch would consult `"p/a"`, so the probe and the fetch are not consistent
and NotFound is not equivalent to absence at the resolved path. -/
theorem load_probe_fetch_mismatch :
    lookupBlob stP (azP.KeyPrefix "a") = some { data := [7], modified := 3 } ∧
      azP.Load envOk stP "a" = .error GoErr.notExist := by
  decide

/-- C5: `Stat` on the existing key `"a.crt"` (empty prefix, blob present, all
backend calls succeeding) reports `IsTerminal = false`, while the claim
requires `IsTerminal = true` for an existing key not ending in `"/"`: the
code computes `IsTerminal := strings.HasSuffix(key, "/")`, the inverse of the
specified condition. -/
theorem stat_isTerminal_inverted :
    (azE.Stat envOk [("a.crt", { data := [7], modified := 3 })] "a.crt").1 =
      { Key := "a.crt", Modified := 3, Size := 1, IsTerminal := false } := by
  decide

/-- C6: `Exists` returns a plain Boolean and swallows every failure — if the
credential construction, the client construction, or the transport fails, the
result is `false` (and no error value is ever produced, as the return type
shows). -/
theorem exists_swallows_failures (az : AzureBlob) (env : Net) (st : ContState)
    (key : String)
    (h : env.credOk = false ∨ env.clientOk = false ∨ env.transportOk = false) :
    az.Exists env st key = false := by
  obtain ⟨c, cl, t⟩ := env
  cases c <;> cases cl <;> cases t <;>
    simp_all [AzureBlob.Exists, getProperties]

/-- C6 (witness): a failing credential construction makes `Exists` false. -/
theorem exists_swallows_failures_witness :
    azP.Exists { credOk := false, clientOk := true, transportOk := true } []
      "a" = false :=
  exists_swallows_failures azP
    { credOk := false, clientOk := true, transportOk := true } [] "a"
    (Or.inl rfl)

/-- C7: whenever the metadata fetch (`GetProperties` at the resolved path)
fails, `Stat` returns the zero-value `KeyInfo` together with a nil error (the
failure is swallowed); on success it returns the object's last-modified
timestamp and content length (again with a nil error). -/
theorem stat_swallows_and_reports (az : AzureBlob) (env : Net)
    (st : ContState) (key : String) :
    (∀ e, getProperties env st (az.KeyPrefix key) = .error e →
      az.Stat env st key = (KeyInfo.zero, none)) ∧
    (∀ pr, getProperties env st (az.KeyPrefix key) = .ok pr →
      az.Stat env st key =
        ({ Key := az.KeyPrefix key, Modified := pr.lastModified,
           Size := pr.contentLength,
           IsTerminal := strHasSuffix (az.KeyPrefix key) "/" }, none)) := by
  constructor
  · intro e he
    simp only [AzureBlob.Stat, he]
  · intro pr hpr
    simp only [AzureBlob.Stat, hpr]

/-- C7 (witness): on an empty container the fetch fails and `Stat` yields the
zero `KeyInfo` with a nil error; with the blob present it yields its
last-modified timestamp and size with a nil error. -/
theorem stat_swallows_and_reports_witness :
    azE.Stat envOk [] "k" = (KeyInfo.zero, none) ∧
      azE.Stat envOk [("k", { data := [9, 9], modified := 4 })] "k" =
        ({ Key := "k", Modified := 4, Size := 2, IsTerminal := false },
          none) :=
  ⟨(stat_swallows_and_reports azE envOk [] "k").1 GoErr.blobNotFound
      (by decide),
    (stat_swallows_and_reports azE envOk
        [("k", { data := [9, 9], modified := 4 })] "k").2
      { lastModified := 4, contentLength := 2 } (by decide)⟩

/-- C8: the `recursive` flag is accepted but never read — for every backend,
environment, state and prefix, `List` returns the same result with
`recursive = true` and `recursive = false`. -/
theorem list_recursive_irrelevant (az : AzureBlob) (env : Net)
    (st : ContState) (p : String) :
    az.List env st p true = az.List env st p false :=
  rfl

/-- C9: the diagnostic string contains the account name, the container and
the prefix as substrings, and does not depend on the credential secret: two
configurations differing only in `AccountKey` produce the same string. -/
theorem string_repr_contents_and_key_independent (az : AzureBlob) :
    (∃ l r, az.String = l ++ (az.AccountName ++ r)) ∧
      (∃ l r, az.String = l ++ (az.Container ++ r)) ∧
      (∃ l r, az.String = l ++ (az.Prefix ++ r)) ∧
      ∀ k, AzureBlob.String { az with AccountKey := k } = az.String := by
  refine ⟨⟨"Azure Blob Storage Account: ",
      ", Container: " ++ az.Container ++ ", Prefix: " ++ az.Prefix, ?_⟩,
    ⟨"Azure Blob Storage Account: " ++ az.AccountName ++ ", Container: ",
      ", Prefix: " ++ az.Prefix, ?_⟩,
    ⟨"Azure Blob Storage Account: " ++ az.AccountName ++ ", Container: "
        ++ az.Container ++ ", Prefix: ", "", ?_⟩,
    fun k => rfl⟩ <;>
    simp only [AzureBlob.String, strAppend_assoc, strAppend_empty]

/-- C10 (counterexample): with the non-empty configured prefix `"."`,
`Stat "a"` succeeds and its `Key` field is `"a"` — identical to the logical
key the caller passed in — so the resolved path does not differ from the
logical key for every non-empty Prefix. -/
theorem stat_key_prefix_coincide_cex :
    azD.Prefix ≠ "" ∧
      (azD.Stat envOk [("a", { data := [7], modified := 3 })] "a").1.Key =
        "a" := by
  decide

/-- C10 (amended): on every key whose metadata fetch succeeds, the `Key`
field of the `KeyInfo` returned by `Stat` is the resolved backend path
`KeyPrefix key` (the prefixed key), not necessarily the logical key; the two
typically differ for a non-empty Prefix (e.g. `"p"`) but can coincide (e.g.
Prefix `"."`). -/
theorem stat_key_is_resolved_path (az : AzureBlob) (env : Net)
    (st : ContState) (key : String) (pr : BlobProps)
    (h : getProperties env st (az.KeyPrefix key) = .ok pr) :
    (az.Stat env st key).1.Key = az.KeyPrefix key := by
  simp only [AzureBlob.Stat, h]

/-- C10 (witness): with prefix `"p"` and the blob at `"p/a"`, `Stat "a"`
returns `Key = KeyPrefix "a"`. -/
theorem stat_key_is_resolved_path_witness :
    (azP.Stat envOk stP "a").1.Key = azP.KeyPrefix "a" :=
  stat_key_is_resolved_path azP envOk stP "a"
    { lastModified := 3, contentLength := 1 } (by decide)
